import Mathlib

/-!
Verification of the Risk & Obligation Engine of the BZR compliance portal.

This file gives a shallow embedding of the engine's core functions:

* the risk scorer (`calculateRisk`, `getRiskLevel`),
* the frequency-string parser (`parseFrequencyToMonths`),
* the deadline notifier sweep (`checkAndSendNotifications`, `sendDeadlineEmail`),
* the obligation detector (`detectMedicalExamDeadlines`, `detectTrainingDeadlines`,
  `detectEquipmentInspections`, `syncAllObligations`),

and proves the engine's correctness properties over it.  Database tables are
embedded as lists of rows; dates as integers (days); the external collaborators
(email dispatch, database insert/update failures, JS `Date.setMonth` month
arithmetic) as oracle functions carried in an environment record.
-/

namespace BzrPortal

/-! ## Risk scorer (document-generator service) -/

/-- Embedding of `calculateRisk(e, p, f)`: the E×P×F product.  The source
performs no input validation. -/
def calculateRisk (e p f : Int) : Int :=
  e * p * f

/-- Embedding of `getRiskLevel(riskValue)`: maps a risk value to the Serbian
Cyrillic band text with inclusive thresholds 36 and 70. -/
def getRiskLevel (riskValue : Int) : String :=
  if riskValue ≤ 36 then
    "Низак ризик (прихватљив)"
  else if riskValue ≤ 70 then
    "Средњи ризик (потребно праћење)"
  else
    "Висок ризик (неприхватљив)"

/-! ## Frequency-string parsing (obligation detector service) -/

/-- Does the first list occur as a leading segment of the second? -/
def leadingMatch : List Char → List Char → Bool
  | [], _ => true
  | _ :: _, [] => false
  | p :: ps, c :: cs => p == c && leadingMatch ps cs

/-- Does `pat` occur as a contiguous segment of the second list?  Embeds the
JavaScript `String.prototype.includes` test on the underlying characters. -/
def containsSegment (pat : List Char) : List Char → Bool
  | [] => leadingMatch pat []
  | c :: cs => leadingMatch pat (c :: cs) || containsSegment pat cs

/-- Embedding of `lower.includes(pat)` on strings. -/
def strIncludes (s pat : String) : Bool :=
  containsSegment pat.data s.data

/-- Embedding of `frequency.toLowerCase()` (ASCII case folding, which is all
the source's patterns exercise). -/
def strToLower (s : String) : String :=
  String.mk (s.data.map Char.toLower)

/-- Embedding of `parseFrequencyToMonths(frequency)`: the source checks the
patterns in this exact order and defaults to 12 months. -/
def parseFrequencyToMonths (frequency : String) : Nat :=
  let lower := strToLower frequency
  if strIncludes lower "godisnj" || strIncludes lower "godisnje" then 12
  else if strIncludes lower "6 meseci" || strIncludes lower "polugodisnje" then 6
  else if strIncludes lower "3 mesec" || strIncludes lower "kvartalno" then 3
  else if strIncludes lower "2 godin" || strIncludes lower "svake 2" then 24
  else if strIncludes lower "3 godin" || strIncludes lower "svake 3" then 36
  else if strIncludes lower "5 godin" || strIncludes lower "svake 5" then 60
  else if strIncludes lower "mesecno" || strIncludes lower "mesecn" then 1
  else 12

/-! ## Data model

One row of the `legal_obligations` table.  Timestamp bookkeeping columns
(`createdAt`, `updatedAt`) are omitted: no verified property reads them.
Dates are integers (days since an arbitrary epoch). -/

structure Obligation where
  id : Nat
  companyId : Nat
  agencyId : Option Nat
  tip : String
  opis : String
  workerName : Option String
  rokDatum : Int
  pravniOsnov : Option String
  status : String
  notifikovanoDana30 : Bool
  notifikovanoDana7 : Bool
  notifikovanoDana1 : Bool
  notifikovanoIsteklo : Bool
  sourceTable : Option String
  sourceRecordId : Option Nat
  deriving DecidableEq, Repr

/-- One row of the `companies` table (the columns the notifier selects). -/
structure Company where
  id : Nat
  name : String
  email : Option String
  ownerEmail : Option String
  deriving DecidableEq, Repr

/-- One row of the `agencies` table (the columns the notifier selects). -/
structure Agency where
  id : Nat
  name : String
  email : Option String
  deriving DecidableEq, Repr

/-- External collaborators and failure oracles.

* `deliveryFails a` — the outbound `sendEmail` call to address `a` rejects
  (its rejection is swallowed by the per-recipient `.catch`).
* `updateFails i` — the `db.update` flag write for obligation `i` throws
  (caught by the notifier's per-obligation `try`).
* `insertFails t r` — the `db.insert` for source record `r` of source table
  `t` throws (the detector has no handler for this).
* `addMonths d m` — the JS `Date.setMonth(getMonth() + m)` arithmetic,
  uninterpreted here: no verified property depends on its value. -/
structure Env where
  companies : List Company
  agencies : List Agency
  deliveryFails : String → Bool
  updateFails : Nat → Bool
  insertFails : String → Nat → Bool
  addMonths : Int → Nat → Int

/-! ## Deadline notifier (`deadline-notification.service.ts`) -/

/-- Embedding of the JS `a || b` fallback on nullable strings: the empty
string is falsy. -/
def jsOr (a b : Option String) : Option String :=
  match a with
  | some s => if s == "" then b else some s
  | none => b

/-- Embedding of the JS truthiness test on a nullable string. -/
def jsTruthy : Option String → Bool
  | some s => !(s == "")
  | none => false

/-- Observable outcome of one `sendDeadlineEmail` call: for each of the two
recipients, the address attempted (if any) paired with whether delivery
succeeded. -/
structure EmailOutcome where
  companyAttempt : Option (String × Bool)
  agencyAttempt : Option (String × Bool)
  deriving DecidableEq, Repr

/-- Embedding of `sendDeadlineEmail(obligation, daysRemaining)`.  The company
row is looked up by `companyId` (optional-chained: a missing row is not an
error), the agency row only when `agencyId` is set; the company address is
`ownerEmail || email`; each recipient is attempted independently and a
delivery rejection is swallowed by its own `.catch`, so this function never
throws. -/
def sendDeadlineEmail (env : Env) (ob : Obligation) (daysRemaining : Nat) : EmailOutcome :=
  let company := env.companies.find? (fun c => c.id == ob.companyId)
  let agencyEmail : Option String :=
    match ob.agencyId with
    | some aid => (env.agencies.find? (fun a => a.id == aid)).bind Agency.email
    | none => none
  let companyEmail : Option String := jsOr (company.bind Company.ownerEmail) (company.bind Company.email)
  let companyAttempt : Option (String × Bool) :=
    if jsTruthy companyEmail then companyEmail.map (fun a => (a, !env.deliveryFails a)) else none
  let agencyAttempt : Option (String × Bool) :=
    if jsTruthy agencyEmail then agencyEmail.map (fun a => (a, !env.deliveryFails a)) else none
  { companyAttempt := companyAttempt, agencyAttempt := agencyAttempt }

/-- The address a fired gate would resolve for the company recipient
(spec-level restatement of the lookup in `sendDeadlineEmail`, used to state
recipient independence). -/
def resolveCompanyEmail (env : Env) (ob : Obligation) : Option String :=
  let company := env.companies.find? (fun c => c.id == ob.companyId)
  let ce := jsOr (company.bind Company.ownerEmail) (company.bind Company.email)
  if jsTruthy ce then ce else none

/-- The address a fired gate would resolve for the agency recipient. -/
def resolveAgencyEmail (env : Env) (ob : Obligation) : Option String :=
  let ae : Option String :=
    match ob.agencyId with
    | some aid => (env.agencies.find? (fun a => a.id == aid)).bind Agency.email
    | none => none
  if jsTruthy ae then ae else none

/-- Running state of one `checkAndSendNotifications` sweep: the obligations
table, the `sent` and `errors` counters, and the log of attempted email
sends `(obligationId, daysRemaining, outcome)`. -/
structure SweepState where
  db : List Obligation
  sent : Nat
  errors : Nat
  log : List (Nat × Nat × EmailOutcome)
  deriving DecidableEq, Repr

/-- Update every row carrying the given id (the primary key) with `f`,
embedding `db.update(...).set(...).where(eq(legalObligations.id, i))`. -/
def updateById (db : List Obligation) (i : Nat) (f : Obligation → Obligation) : List Obligation :=
  db.map (fun o => if o.id == i then f o else o)

/-- One iteration of a notifier gate loop: send the notification email, then
write the gate's flag; a `db.update` throw is caught and counted in `errors`,
anything else counts in `sent`. -/
def processItem (env : Env) (days : Nat) (upd : Obligation → Obligation)
    (st : SweepState) (ob : Obligation) : SweepState :=
  let out := sendDeadlineEmail env ob days
  let st' := { st with log := st.log ++ [(ob.id, days, out)] }
  if env.updateFails ob.id then
    { st' with errors := st'.errors + 1 }
  else
    { st' with db := updateById st'.db ob.id upd, sent := st'.sent + 1 }

/-- One notifier gate: select the rows matching the gate's predicate from the
current table (a snapshot), then process each selected row in order. -/
def runGate (env : Env) (pred : Obligation → Bool) (days : Nat)
    (upd : Obligation → Obligation) (st : SweepState) : SweepState :=
  (st.db.filter pred).foldl (processItem env days upd) st

/-- Selection predicate of the 30-day gate. -/
def gate30Pred (today : Int) (o : Obligation) : Bool :=
  o.status == "aktivan" && o.notifikovanoDana30 == false &&
    decide (o.rokDatum ≤ today + 30) && decide (o.rokDatum > today)

/-- Selection predicate of the 7-day gate. -/
def gate7Pred (today : Int) (o : Obligation) : Bool :=
  o.status == "aktivan" && o.notifikovanoDana7 == false &&
    decide (o.rokDatum ≤ today + 7) && decide (o.rokDatum > today)

/-- Selection predicate of the 1-day gate. -/
def gate1Pred (today : Int) (o : Obligation) : Bool :=
  o.status == "aktivan" && o.notifikovanoDana1 == false &&
    decide (o.rokDatum ≤ today + 1) && decide (o.rokDatum > today)

/-- Selection predicate of the expired gate. -/
def expiredPred (today : Int) (o : Obligation) : Bool :=
  o.status == "aktivan" && o.notifikovanoIsteklo == false &&
    decide (o.rokDatum < today)

/-- Flag write of the 30-day gate. -/
def setNotified30 (o : Obligation) : Obligation :=
  { o with notifikovanoDana30 := true }

/-- Flag write of the 7-day gate. -/
def setNotified7 (o : Obligation) : Obligation :=
  { o with notifikovanoDana7 := true }

/-- Flag write of the 1-day gate. -/
def setNotified1 (o : Obligation) : Obligation :=
  { o with notifikovanoDana1 := true }

/-- Flag-and-status write of the expired gate. -/
def setNotifiedExpired (o : Obligation) : Obligation :=
  { o with notifikovanoIsteklo := true, status := "istekao" }

/-- Embedding of `checkAndSendNotifications()`: the four gates run in order
(30-day, 7-day, 1-day, expired), each taking a fresh snapshot of the table. -/
def checkAndSendNotifications (env : Env) (today : Int) (db : List Obligation) : SweepState :=
  let st0 : SweepState := { db := db, sent := 0, errors := 0, log := [] }
  let st1 := runGate env (gate30Pred today) 30 setNotified30 st0
  let st2 := runGate env (gate7Pred today) 7 setNotified7 st1
  let st3 := runGate env (gate1Pred today) 1 setNotified1 st2
  runGate env (expiredPred today) 0 setNotifiedExpired st3

/-! ## Obligation detector (obligation-detector service)

Source rows scanned by the detector.  Each structure carries exactly the
columns the detector selects or filters on. -/

structure MedicalExamReq where
  id : Nat
  positionId : Nat
  examType : String
  frequency : String
  isDeleted : Bool
  deriving DecidableEq, Repr

structure TrainingReq where
  id : Nat
  positionId : Nat
  trainingType : String
  frequency : String
  isDeleted : Bool
  deriving DecidableEq, Repr

structure WorkPosition where
  id : Nat
  companyId : Nat
  positionName : String
  isDeleted : Bool
  deriving DecidableEq, Repr

structure EquipmentInspection where
  id : Nat
  companyId : Nat
  nazivOpreme : String
  sledeciPregled : Option Int
  isDeleted : Bool
  deriving DecidableEq, Repr

structure ElectricalInspection where
  id : Nat
  companyId : Nat
  vrstaInstalacije : String
  sledeciPregled : Option Int
  isDeleted : Bool
  deriving DecidableEq, Repr

structure EnvironmentTest where
  id : Nat
  companyId : Nat
  vrstaIspitivanja : String
  sledeciPregled : Option Int
  isDeleted : Bool
  deriving DecidableEq, Repr

/-- The upstream domain tables the detector scans. -/
structure SourceData where
  medicalExamRequirements : List MedicalExamReq
  trainingRequirements : List TrainingReq
  workPositions : List WorkPosition
  equipmentInspections : List EquipmentInspection
  electricalInspections : List ElectricalInspection
  environmentTests : List EnvironmentTest

/-- The mutable state the detector works on: the `legal_obligations` table
plus the serial-column counter supplying fresh primary keys. -/
structure World where
  obligations : List Obligation
  nextId : Nat
  deriving DecidableEq, Repr

/-- Embedding of the JS `agencyId || null` coercion (`0` is falsy). -/
def jsOrNullNat : Option Nat → Option Nat
  | some n => if n == 0 then none else some n
  | none => none

/-- Embedding of the dedupe query: is there a row matching
`(companyId, tip, sourceTable, sourceRecordId)`? -/
def obligationExists (obs : List Obligation) (companyId : Nat)
    (tip sourceTable : String) (recId : Nat) : Bool :=
  obs.any (fun o =>
    o.companyId == companyId && o.tip == tip &&
      o.sourceTable == some sourceTable && o.sourceRecordId == some recId)

/-- The values one detector loop iteration would insert, computed from the
source record before the dedupe check / insert. -/
structure PendingInsert where
  tip : String
  sourceTable : String
  opis : String
  pravniOsnov : String
  sourceRecordId : Nat
  rokDatum : Int
  deriving DecidableEq, Repr

/-- The row a detector insert writes: column defaults of the schema give
status `aktivan` and all four notification flags `false`. -/
def mkObligation (companyId : Nat) (agencyId : Option Nat) (pi : PendingInsert)
    (oid : Nat) : Obligation :=
  { id := oid
    companyId := companyId
    agencyId := jsOrNullNat agencyId
    tip := pi.tip
    opis := pi.opis
    workerName := none
    rokDatum := pi.rokDatum
    pravniOsnov := some pi.pravniOsnov
    status := "aktivan"
    notifikovanoDana30 := false
    notifikovanoDana7 := false
    notifikovanoDana1 := false
    notifikovanoIsteklo := false
    sourceTable := some pi.sourceTable
    sourceRecordId := some pi.sourceRecordId }

/-- The shared shape of every detector loop: for each source-derived pending
row, skip when the dedupe query finds an existing obligation, otherwise
insert.  A throwing insert is unhandled in the source, so it aborts the loop,
leaving the rows already inserted in place (each insert is a separate
statement; there is no surrounding transaction). -/
def insertLoop (env : Env) (companyId : Nat) (agencyId : Option Nat) :
    List PendingInsert → World → List Obligation → World × Except String (List Obligation)
  | [], w, created => (w, Except.ok created)
  | pi :: rest, w, created =>
    if obligationExists w.obligations companyId pi.tip pi.sourceTable pi.sourceRecordId then
      insertLoop env companyId agencyId rest w created
    else if env.insertFails pi.sourceTable pi.sourceRecordId then
      (w, Except.error "insert failed")
    else
      let ob := mkObligation companyId agencyId pi w.nextId
      insertLoop env companyId agencyId rest
        { obligations := w.obligations ++ [ob], nextId := w.nextId + 1 }
        (created ++ [ob])

/-- The inner join of `medicalExamRequirements` with `workPositions` on
`positionId`, filtered to the company and to undeleted rows. -/
def medicalExamRows (src : SourceData) (companyId : Nat) :
    List (MedicalExamReq × WorkPosition) :=
  src.medicalExamRequirements.flatMap (fun m =>
    src.workPositions.filterMap (fun p =>
      if m.positionId == p.id && p.companyId == companyId && !m.isDeleted && !p.isDeleted then
        some (m, p)
      else none))

/-- The inner join of `trainingRequirements` with `workPositions`. -/
def trainingRows (src : SourceData) (companyId : Nat) :
    List (TrainingReq × WorkPosition) :=
  src.trainingRequirements.flatMap (fun t =>
    src.workPositions.filterMap (fun p =>
      if t.positionId == p.id && p.companyId == companyId && !t.isDeleted && !p.isDeleted then
        some (t, p)
      else none))

/-- Pending inserts of `detectMedicalExamDeadlines`: due date from the parsed
frequency added to now. -/
def medicalPending (src : SourceData) (env : Env) (today : Int) (companyId : Nat) :
    List PendingInsert :=
  (medicalExamRows src companyId).map (fun mp =>
    { tip := "lekarski_pregled"
      sourceTable := "medical_exam_requirements"
      opis := mp.1.examType ++ " - " ++ mp.2.positionName
      pravniOsnov := "Zakon o BZR, clan 41"
      sourceRecordId := mp.1.id
      rokDatum := env.addMonths today (parseFrequencyToMonths mp.1.frequency) })

/-- Pending inserts of `detectTrainingDeadlines`. -/
def trainingPending (src : SourceData) (env : Env) (today : Int) (companyId : Nat) :
    List PendingInsert :=
  (trainingRows src companyId).map (fun tp =>
    { tip := "obuka_bzr"
      sourceTable := "training_requirements"
      opis := tp.1.trainingType ++ " - " ++ tp.2.positionName
      pravniOsnov := "Zakon o BZR, clan 27-30"
      sourceRecordId := tp.1.id
      rokDatum := env.addMonths today (parseFrequencyToMonths tp.1.frequency) })

/-- Pending inserts of the Obrazac 8 loop of `detectEquipmentInspections`:
rows without a `sledeciPregled` date are skipped, the date is used verbatim. -/
def equipmentPending (src : SourceData) (companyId : Nat) : List PendingInsert :=
  (src.equipmentInspections.filter (fun i => i.companyId == companyId && !i.isDeleted)).filterMap
    (fun i => i.sledeciPregled.map (fun d =>
      { tip := "pregled_opreme"
        sourceTable := "evidence_equipment_inspections"
        opis := "Pregled opreme: " ++ i.nazivOpreme
        pravniOsnov := "Zakon o BZR, clan 16"
        sourceRecordId := i.id
        rokDatum := d }))

/-- Pending inserts of the Obrazac 9 loop of `detectEquipmentInspections`. -/
def electricalPending (src : SourceData) (companyId : Nat) : List PendingInsert :=
  (src.electricalInspections.filter (fun i => i.companyId == companyId && !i.isDeleted)).filterMap
    (fun i => i.sledeciPregled.map (fun d =>
      { tip := "ispitivanje_instalacija"
        sourceTable := "evidence_electrical_inspections"
        opis := "Ispitivanje elektricnih instalacija: " ++ i.vrstaInstalacije
        pravniOsnov := "Zakon o BZR, clan 15"
        sourceRecordId := i.id
        rokDatum := d }))

/-- Pending inserts of the Obrazac 10 loop of `detectEquipmentInspections`. -/
def environmentPending (src : SourceData) (companyId : Nat) : List PendingInsert :=
  (src.environmentTests.filter (fun i => i.companyId == companyId && !i.isDeleted)).filterMap
    (fun i => i.sledeciPregled.map (fun d =>
      { tip := "ispitivanje_okoline"
        sourceTable := "evidence_environment_tests"
        opis := "Ispitivanje uslova radne okoline: " ++ i.vrstaIspitivanja
        pravniOsnov := "Zakon o BZR, clan 14"
        sourceRecordId := i.id
        rokDatum := d }))

/-- Embedding of `detectMedicalExamDeadlines(companyId, agencyId)`. -/
def detectMedicalExamDeadlines (src : SourceData) (env : Env) (today : Int)
    (companyId : Nat) (agencyId : Option Nat) (w : World) :
    World × Except String (List Obligation) :=
  insertLoop env companyId agencyId (medicalPending src env today companyId) w []

/-- Embedding of `detectTrainingDeadlines(companyId, agencyId)`. -/
def detectTrainingDeadlines (src : SourceData) (env : Env) (today : Int)
    (companyId : Nat) (agencyId : Option Nat) (w : World) :
    World × Except String (List Obligation) :=
  insertLoop env companyId agencyId (trainingPending src env today companyId) w []

/-- Embedding of `detectEquipmentInspections(companyId, agencyId)`: its three
sequential loops (equipment, electrical, environment) accumulate one created
list; running them is the single loop over the concatenated pending rows. -/
def detectEquipmentInspections (src : SourceData) (env : Env) (today : Int)
    (companyId : Nat) (agencyId : Option Nat) (w : World) :
    World × Except String (List Obligation) :=
  insertLoop env companyId agencyId
    (equipmentPending src companyId ++ electricalPending src companyId ++
      environmentPending src companyId) w []

/-- The row transformation of the bulk expiry update: an `aktivan` row of the
company with a strictly past due date becomes `istekao`; all other rows are
untouched. -/
def expireOne (today : Int) (companyId : Nat) (o : Obligation) : Obligation :=
  if o.companyId == companyId && o.status == "aktivan" && decide (o.rokDatum < today) then
    { o with status := "istekao" }
  else o

/-- Embedding of the bulk expiry update closing `syncAllObligations`: every
`aktivan` obligation of the company whose due date is strictly past becomes
`istekao`. -/
def expireCompanyObligations (today : Int) (companyId : Nat)
    (obs : List Obligation) : List Obligation :=
  obs.map (expireOne today companyId)

/-- Embedding of `syncAllObligations(companyId, agencyId)`: the three detect
calls in order, then the bulk expiry update; a throw in any detect call
propagates, skipping everything after it, and only the created count of a
fully successful run is returned. -/
def syncAllObligations (src : SourceData) (env : Env) (today : Int)
    (companyId : Nat) (agencyId : Option Nat) (w : World) : World × Except String Nat :=
  match detectMedicalExamDeadlines src env today companyId agencyId w with
  | (w1, Except.error e) => (w1, Except.error e)
  | (w1, Except.ok med) =>
    match detectTrainingDeadlines src env today companyId agencyId w1 with
    | (w2, Except.error e) => (w2, Except.error e)
    | (w2, Except.ok tr) =>
      match detectEquipmentInspections src env today companyId agencyId w2 with
      | (w3, Except.error e) => (w3, Except.error e)
      | (w3, Except.ok eqp) =>
        ({ obligations := expireCompanyObligations today companyId w3.obligations
           nextId := w3.nextId },
         Except.ok (med.length + tr.length + eqp.length))

/-! ## Operation sequences (for flag monotonicity over arbitrary runs) -/

/-- One invocation of the engine: a notifier sweep or a detector sync. -/
inductive Step where
  | sweep (env : Env) (today : Int)
  | sync (src : SourceData) (env : Env) (today : Int) (companyId : Nat) (agencyId : Option Nat)

/-- Apply one step to the persistent state. -/
def applyStep (w : World) : Step → World
  | Step.sweep env today =>
    { obligations := (checkAndSendNotifications env today w.obligations).db
      nextId := w.nextId }
  | Step.sync src env today companyId agencyId =>
    (syncAllObligations src env today companyId agencyId w).1

/-- Run a sequence of engine invocations. -/
def runSteps (w : World) (steps : List Step) : World :=
  steps.foldl applyStep w

/-- First row of the obligations table carrying the given primary key. -/
def findById : List Obligation → Nat → Option Obligation
  | [], _ => none
  | o :: rest, i => if o.id == i then some o else findById rest i

/-- Pointwise ordering of the four one-shot notification flags: every flag
set in the first row is still set in the second. -/
def flagsLe (o o' : Obligation) : Prop :=
  (o.notifikovanoDana30 = true → o'.notifikovanoDana30 = true) ∧
    (o.notifikovanoDana7 = true → o'.notifikovanoDana7 = true) ∧
    (o.notifikovanoDana1 = true → o'.notifikovanoDana1 = true) ∧
    (o.notifikovanoIsteklo = true → o'.notifikovanoIsteklo = true)

/-! ## Concrete test fixtures

Small closed instances used to evaluate the verified statements on concrete
inputs. -/

/-- A concrete stand-in for the JS month arithmetic oracle. -/
def fixAddMonths : Int → Nat → Int := fun d m => d + 30 * m

def fixCompany : Company :=
  { id := 1, name := "Test preduzece", email := some "info@test.example", ownerEmail := none }

def fixAgency : Agency :=
  { id := 1, name := "Test agencija", email := some "agencija@test.example" }

/-- Environment in which nothing fails. -/
def fixEnv : Env :=
  { companies := [fixCompany], agencies := [fixAgency],
    deliveryFails := fun _ => false, updateFails := fun _ => false,
    insertFails := fun _ _ => false, addMonths := fixAddMonths }

/-- Environment with no company or agency rows, so no recipient resolves. -/
def fixEnvNoRecipients : Env :=
  { companies := [], agencies := [],
    deliveryFails := fun _ => false, updateFails := fun _ => false,
    insertFails := fun _ _ => false, addMonths := fixAddMonths }

/-- Environment in which inserting the obligation for medical-exam source
record 1 throws. -/
def fixEnvInsertFail : Env :=
  { fixEnv with insertFails := fun t r => t == "medical_exam_requirements" && r == 1 }

def fixPosition : WorkPosition :=
  { id := 1, companyId := 1, positionName := "Operater", isDeleted := false }

def fixExam1 : MedicalExamReq :=
  { id := 1, positionId := 1, examType := "Prethodni pregled",
    frequency := "godisnje", isDeleted := false }

def fixExam2 : MedicalExamReq :=
  { id := 2, positionId := 1, examType := "Periodicni pregled",
    frequency := "godisnje", isDeleted := false }

/-- Source data with a single medical-exam requirement. -/
def fixSrcOne : SourceData :=
  { medicalExamRequirements := [fixExam1], trainingRequirements := [],
    workPositions := [fixPosition], equipmentInspections := [],
    electricalInspections := [], environmentTests := [] }

/-- Source data with two medical-exam requirements on the same position. -/
def fixSrcTwo : SourceData :=
  { medicalExamRequirements := [fixExam1, fixExam2], trainingRequirements := [],
    workPositions := [fixPosition], equipmentInspections := [],
    electricalInspections := [], environmentTests := [] }

def fixWorldEmpty : World := { obligations := [], nextId := 1 }

/-- An active obligation whose due date (day 5) is past once today is day 10. -/
def fixObExpired : Obligation :=
  { id := 1, companyId := 1, agencyId := none, tip := "lekarski_pregled",
    opis := "Prethodni pregled - Operater", workerName := none, rokDatum := 5,
    pravniOsnov := some "Zakon o BZR, clan 41", status := "aktivan",
    notifikovanoDana30 := false, notifikovanoDana7 := false,
    notifikovanoDana1 := false, notifikovanoIsteklo := false,
    sourceTable := some "medical_exam_requirements", sourceRecordId := some 1 }

/-- The same overdue obligation already completed by the user. -/
def fixObZavrsen : Obligation := { fixObExpired with status := "zavrsen" }

/-- An active obligation due on day 5 (today day 0) whose 30-day reminder has
already gone out. -/
def fixObGate7 : Obligation :=
  { id := 2, companyId := 1, agencyId := none, tip := "obuka_bzr",
    opis := "Obuka BZR - Operater", workerName := none, rokDatum := 5,
    pravniOsnov := some "Zakon o BZR, clan 27-30", status := "aktivan",
    notifikovanoDana30 := true, notifikovanoDana7 := false,
    notifikovanoDana1 := false, notifikovanoIsteklo := false,
    sourceTable := none, sourceRecordId := none }

/-- An active obligation due on day 15 (today day 0), in the 30-day window. -/
def fixObGate30 : Obligation :=
  { id := 3, companyId := 1, agencyId := some 1, tip := "pregled_opreme",
    opis := "Pregled opreme: presa", workerName := none, rokDatum := 15,
    pravniOsnov := some "Zakon o BZR, clan 16", status := "aktivan",
    notifikovanoDana30 := false, notifikovanoDana7 := false,
    notifikovanoDana1 := false, notifikovanoIsteklo := false,
    sourceTable := some "evidence_equipment_inspections", sourceRecordId := some 1 }

/-! ## Basic lemmas about row lookup and per-id updates -/

theorem findById_id_eq {db : List Obligation} {i : Nat} {o : Obligation}
    (h : findById db i = some o) : o.id = i := by
  induction db with
  | nil => simp [findById] at h
  | cons x rest ih =>
    by_cases hx : x.id == i
    · simp [findById, hx] at h
      subst h
      exact eq_of_beq hx
    · simp [findById, hx] at h
      exact ih h

theorem findById_mem {db : List Obligation} {i : Nat} {o : Obligation}
    (h : findById db i = some o) : o ∈ db := by
  induction db with
  | nil => simp [findById] at h
  | cons x rest ih =>
    by_cases hx : x.id == i
    · simp [findById, hx] at h
      subst h
      exact List.mem_cons_self x rest
    · simp [findById, hx] at h
      exact List.mem_cons_of_mem x (ih h)

theorem findById_append_left {db : List Obligation} {i : Nat} {o : Obligation}
    (h : findById db i = some o) (l : List Obligation) :
    findById (db ++ l) i = some o := by
  induction db with
  | nil => simp [findById] at h
  | cons x rest ih =>
    by_cases hx : x.id == i
    · simp [findById, hx] at h ⊢
      exact h
    · simp [findById, hx] at h ⊢
      exact ih h

theorem findById_map (f : Obligation → Obligation) (hf : ∀ o, (f o).id = o.id)
    (obs : List Obligation) (i : Nat) :
    findById (obs.map f) i = (findById obs i).map f := by
  induction obs with
  | nil => rfl
  | cons o rest ih =>
    by_cases hx : o.id == i
    · have hfx : ((f o).id == i) = true := by rw [hf o]; exact hx
      simp [findById, hx, hfx]
    · have hfx : ¬ ((f o).id == i) = true := by rw [hf o]; exact hx
      simp [findById, hx, hfx, ih]

theorem updateById_map_id (db : List Obligation) (j : Nat)
    (f : Obligation → Obligation) (hf : ∀ o, (f o).id = o.id) :
    (updateById db j f).map Obligation.id = db.map Obligation.id := by
  unfold updateById
  rw [List.map_map]
  apply List.map_congr_left
  intro o _
  by_cases h : o.id = j <;> simp [h, hf]

theorem findById_updateById (db : List Obligation) (j i : Nat)
    (f : Obligation → Obligation) (hf : ∀ o, (f o).id = o.id) :
    findById (updateById db j f) i =
      (findById db i).map (fun o => if o.id == j then f o else o) := by
  unfold updateById
  exact findById_map _ (fun o => by by_cases h : o.id = j <;> simp [h, hf]) db i

theorem findById_updateById_eq {db : List Obligation} {i : Nat} {o : Obligation}
    (h : findById db i = some o) (f : Obligation → Obligation)
    (hf : ∀ o, (f o).id = o.id) :
    findById (updateById db i f) i = some (f o) := by
  rw [findById_updateById db i i f hf, h]
  simp [findById_id_eq h]

theorem findById_updateById_ne {db : List Obligation} {i j : Nat} {o : Obligation}
    (h : findById db i = some o) (hne : j ≠ i) (f : Obligation → Obligation)
    (hf : ∀ o, (f o).id = o.id) :
    findById (updateById db j f) i = some o := by
  rw [findById_updateById db j i f hf, h]
  have hoi := findById_id_eq h
  subst hoi
  simp [Ne.symm hne]

/-! ## Lemmas about one notifier gate -/

theorem processItem_db (env : Env) (days : Nat) (u : Obligation → Obligation)
    (st : SweepState) (ob : Obligation) :
    (processItem env days u st ob).db =
      if env.updateFails ob.id then st.db else updateById st.db ob.id u := by
  simp only [processItem]
  split <;> rfl

theorem processItem_sent (env : Env) (days : Nat) (u : Obligation → Obligation)
    (st : SweepState) (ob : Obligation) :
    (processItem env days u st ob).sent =
      if env.updateFails ob.id then st.sent else st.sent + 1 := by
  simp only [processItem]
  split <;> rfl

theorem processItem_errors (env : Env) (days : Nat) (u : Obligation → Obligation)
    (st : SweepState) (ob : Obligation) :
    (processItem env days u st ob).errors =
      if env.updateFails ob.id then st.errors + 1 else st.errors := by
  simp only [processItem]
  split <;> rfl

theorem processItem_log (env : Env) (days : Nat) (u : Obligation → Obligation)
    (st : SweepState) (ob : Obligation) :
    (processItem env days u st ob).log =
      st.log ++ [(ob.id, days, sendDeadlineEmail env ob days)] := by
  simp only [processItem]
  split <;> rfl

theorem foldl_processItem_find (env : Env) (days : Nat) (u : Obligation → Obligation)
    (hu_id : ∀ o, (u o).id = o.id) (hu_idem : ∀ o, u (u o) = u o)
    (items : List Obligation) (st : SweepState) (i : Nat) :
    findById ((items.foldl (processItem env days u) st).db) i =
      if items.any (fun ob => ob.id == i && !env.updateFails ob.id) then
        (findById st.db i).map u
      else findById st.db i := by
  induction items generalizing st with
  | nil => simp
  | cons x rest ih =>
    rw [List.foldl_cons, ih]
    by_cases hfl : env.updateFails x.id
    · have hdb : (processItem env days u st x).db = st.db := by
        rw [processItem_db]
        simp [hfl]
      have hc : (x.id == i && !env.updateFails x.id) = false := by
        simp [hfl]
      rw [hdb]
      simp only [List.any_cons, hc, Bool.false_or]
    · have hdb : (processItem env days u st x).db = updateById st.db x.id u := by
        rw [processItem_db]
        simp [hfl]
      rw [hdb]
      by_cases hxi : x.id = i
      · subst hxi
        have hc : (x.id == x.id && !env.updateFails x.id) = true := by
          simp [hfl]
        simp only [List.any_cons, hc, Bool.true_or, if_pos]
        rw [findById_updateById st.db x.id x.id u hu_id]
        by_cases hany : rest.any (fun ob => ob.id == x.id && !env.updateFails ob.id) = true
        · rw [if_pos hany]
          cases hfind : findById st.db x.id with
          | none => simp
          | some o =>
            have hoi : o.id = x.id := findById_id_eq hfind
            simp [hoi, hu_idem]
        · rw [if_neg hany]
          cases hfind : findById st.db x.id with
          | none => simp
          | some o =>
            have hoi : o.id = x.id := findById_id_eq hfind
            simp [hoi]
      · have hc : (x.id == i && !env.updateFails x.id) = false := by
          simp [hxi]
        simp only [List.any_cons, hc, Bool.false_or]
        rw [findById_updateById st.db x.id i u hu_id]
        cases hfind : findById st.db i with
        | none => simp
        | some o =>
          have hoi : o.id = i := findById_id_eq hfind
          have hne : ¬ o.id = x.id := by
            rw [hoi]
            intro hh
            exact hxi hh.symm
          simp [hne]

theorem foldl_processItem_map_id (env : Env) (days : Nat) (u : Obligation → Obligation)
    (hu_id : ∀ o, (u o).id = o.id) (items : List Obligation) (st : SweepState) :
    ((items.foldl (processItem env days u) st).db).map Obligation.id =
      st.db.map Obligation.id := by
  induction items generalizing st with
  | nil => rfl
  | cons x rest ih =>
    rw [List.foldl_cons, ih]
    rw [processItem_db]
    by_cases hfl : env.updateFails x.id
    · simp [hfl]
    · simp [hfl, updateById_map_id _ _ _ hu_id]

theorem foldl_processItem_log_grows (env : Env) (days : Nat)
    (u : Obligation → Obligation) (items : List Obligation) (st : SweepState)
    {e : Nat × Nat × EmailOutcome} (he : e ∈ st.log) :
    e ∈ (items.foldl (processItem env days u) st).log := by
  induction items generalizing st with
  | nil => exact he
  | cons x rest ih =>
    rw [List.foldl_cons]
    apply ih
    rw [processItem_log]
    exact List.mem_append_left _ he

theorem foldl_processItem_log_mem (env : Env) (days : Nat)
    (u : Obligation → Obligation) (items : List Obligation) (st : SweepState)
    {ob : Obligation} (hmem : ob ∈ items) :
    (ob.id, days, sendDeadlineEmail env ob days) ∈
      (items.foldl (processItem env days u) st).log := by
  induction items generalizing st with
  | nil => cases hmem
  | cons x rest ih =>
    rw [List.foldl_cons]
    rcases List.mem_cons.mp hmem with hx | hrest
    · subst hx
      apply foldl_processItem_log_grows
      rw [processItem_log]
      exact List.mem_append_right _ (List.mem_singleton.mpr rfl)
    · exact ih _ hrest

theorem foldl_processItem_sent (env : Env) (days : Nat) (u : Obligation → Obligation)
    (items : List Obligation) (st : SweepState) :
    (items.foldl (processItem env days u) st).sent =
      st.sent + items.countP (fun ob => !env.updateFails ob.id) := by
  induction items generalizing st with
  | nil => simp
  | cons x rest ih =>
    rw [List.foldl_cons, ih, processItem_sent, List.countP_cons]
    by_cases hfl : env.updateFails x.id <;> simp [hfl] <;> omega

theorem foldl_processItem_errors (env : Env) (days : Nat) (u : Obligation → Obligation)
    (items : List Obligation) (st : SweepState) :
    (items.foldl (processItem env days u) st).errors =
      st.errors + items.countP (fun ob => env.updateFails ob.id) := by
  induction items generalizing st with
  | nil => simp
  | cons x rest ih =>
    rw [List.foldl_cons, ih, processItem_errors, List.countP_cons]
    by_cases hfl : env.updateFails x.id <;> simp [hfl] <;> omega

theorem foldl_processItem_log_length (env : Env) (days : Nat)
    (u : Obligation → Obligation) (items : List Obligation) (st : SweepState) :
    (items.foldl (processItem env days u) st).log.length =
      st.log.length + items.length := by
  induction items generalizing st with
  | nil => simp
  | cons x rest ih =>
    rw [List.foldl_cons, ih, processItem_log]
    simp
    omega

theorem runGate_find (env : Env) (pred : Obligation → Bool) (days : Nat)
    (u : Obligation → Obligation) (hu_id : ∀ o, (u o).id = o.id)
    (hu_idem : ∀ o, u (u o) = u o) (st : SweepState) (i : Nat) :
    findById ((runGate env pred days u st).db) i =
      if (st.db.filter pred).any (fun ob => ob.id == i && !env.updateFails ob.id) then
        (findById st.db i).map u
      else findById st.db i := by
  unfold runGate
  exact foldl_processItem_find env days u hu_id hu_idem _ st i

theorem runGate_map_id (env : Env) (pred : Obligation → Bool) (days : Nat)
    (u : Obligation → Obligation) (hu_id : ∀ o, (u o).id = o.id) (st : SweepState) :
    ((runGate env pred days u st).db).map Obligation.id = st.db.map Obligation.id := by
  unfold runGate
  exact foldl_processItem_map_id env days u hu_id _ st

/-- With the primary keys unique, the select-by-id condition over the rows a
gate snapshots reduces to the gate predicate and the failure oracle at the
single row carrying that id. -/
theorem any_filter_eval {db : List Obligation} {i : Nat} {ob : Obligation}
    (hnd : (db.map Obligation.id).Nodup) (hfind : findById db i = some ob)
    (p : Obligation → Bool) (fail : Nat → Bool) :
    (db.filter p).any (fun o => o.id == i && !fail o.id) = (p ob && !fail i) := by
  have hid : ob.id = i := findById_id_eq hfind
  have hmem : ob ∈ db := findById_mem hfind
  rw [Bool.eq_iff_iff]
  constructor
  · intro h
    rcases List.any_eq_true.mp h with ⟨x, hxmem, hx⟩
    rcases List.mem_filter.mp hxmem with ⟨hxdb, hpx⟩
    simp only [Bool.and_eq_true] at hx
    rcases hx with ⟨hxid, hxfail⟩
    have hxi : x.id = i := eq_of_beq hxid
    have hxeq : x = ob := List.inj_on_of_nodup_map hnd hxdb hmem (by rw [hxi, hid])
    subst hxeq
    simp only [Bool.and_eq_true]
    refine ⟨hpx, ?_⟩
    rwa [hxi] at hxfail
  · intro h
    simp only [Bool.and_eq_true] at h
    rcases h with ⟨hp, hf⟩
    apply List.any_eq_true.mpr
    refine ⟨ob, List.mem_filter.mpr ⟨hmem, hp⟩, ?_⟩
    simp only [Bool.and_eq_true]
    exact ⟨by rw [hid]; simp, by rwa [hid]⟩

/-- A gate leaves the row with key `i` untouched when the gate predicate
rejects that row (the keys being unique). -/
theorem runGate_skip {db : List Obligation} {i : Nat} {ob : Obligation}
    (env : Env) (pred : Obligation → Bool) (days : Nat)
    (u : Obligation → Obligation) (hu_id : ∀ o, (u o).id = o.id)
    (hu_idem : ∀ o, u (u o) = u o) (st : SweepState) (hdb : st.db = db)
    (hnd : (db.map Obligation.id).Nodup) (hfind : findById db i = some ob)
    (hp : pred ob = false) :
    findById ((runGate env pred days u st).db) i = some ob := by
  rw [runGate_find env pred days u hu_id hu_idem st i, hdb,
    any_filter_eval hnd hfind pred env.updateFails, hp]
  simp [hdb, hfind]

/-- A gate applies its write to the row with key `i` when the gate predicate
accepts that row and the update oracle does not fail it. -/
theorem runGate_fire {db : List Obligation} {i : Nat} {ob : Obligation}
    (env : Env) (pred : Obligation → Bool) (days : Nat)
    (u : Obligation → Obligation) (hu_id : ∀ o, (u o).id = o.id)
    (hu_idem : ∀ o, u (u o) = u o) (st : SweepState) (hdb : st.db = db)
    (hnd : (db.map Obligation.id).Nodup) (hfind : findById db i = some ob)
    (hp : pred ob = true) (hfl : env.updateFails i = false) :
    findById ((runGate env pred days u st).db) i = some (u ob) := by
  rw [runGate_find env pred days u hu_id hu_idem st i, hdb,
    any_filter_eval hnd hfind pred env.updateFails, hp, hfl]
  simp [hdb, hfind]

/-! ## The four gate writes preserve the key and are idempotent -/

theorem setNotified30_id (o : Obligation) : (setNotified30 o).id = o.id := rfl

theorem setNotified7_id (o : Obligation) : (setNotified7 o).id = o.id := rfl

theorem setNotified1_id (o : Obligation) : (setNotified1 o).id = o.id := rfl

theorem setNotifiedExpired_id (o : Obligation) : (setNotifiedExpired o).id = o.id := rfl

theorem setNotified30_idem (o : Obligation) :
    setNotified30 (setNotified30 o) = setNotified30 o := rfl

theorem setNotified7_idem (o : Obligation) :
    setNotified7 (setNotified7 o) = setNotified7 o := rfl

theorem setNotified1_idem (o : Obligation) :
    setNotified1 (setNotified1 o) = setNotified1 o := rfl

theorem setNotifiedExpired_idem (o : Obligation) :
    setNotifiedExpired (setNotifiedExpired o) = setNotifiedExpired o := rfl

theorem sweep_map_id (env : Env) (today : Int) (db : List Obligation) :
    ((checkAndSendNotifications env today db).db).map Obligation.id =
      db.map Obligation.id := by
  simp only [checkAndSendNotifications]
  rw [runGate_map_id env _ _ _ setNotifiedExpired_id,
    runGate_map_id env _ _ _ setNotified1_id,
    runGate_map_id env _ _ _ setNotified7_id,
    runGate_map_id env _ _ _ setNotified30_id]

/-! ## Flag monotonicity -/

theorem flagsLe_refl (o : Obligation) : flagsLe o o :=
  ⟨fun h => h, fun h => h, fun h => h, fun h => h⟩

theorem flagsLe_trans {a b c : Obligation} (h1 : flagsLe a b) (h2 : flagsLe b c) :
    flagsLe a c :=
  ⟨fun h => h2.1 (h1.1 h), fun h => h2.2.1 (h1.2.1 h),
    fun h => h2.2.2.1 (h1.2.2.1 h), fun h => h2.2.2.2 (h1.2.2.2 h)⟩

theorem flagsLe_setNotified30 (o : Obligation) : flagsLe o (setNotified30 o) :=
  ⟨fun _ => rfl, fun h => h, fun h => h, fun h => h⟩

theorem flagsLe_setNotified7 (o : Obligation) : flagsLe o (setNotified7 o) :=
  ⟨fun h => h, fun _ => rfl, fun h => h, fun h => h⟩

theorem flagsLe_setNotified1 (o : Obligation) : flagsLe o (setNotified1 o) :=
  ⟨fun h => h, fun h => h, fun _ => rfl, fun h => h⟩

theorem flagsLe_setNotifiedExpired (o : Obligation) : flagsLe o (setNotifiedExpired o) :=
  ⟨fun h => h, fun h => h, fun h => h, fun _ => rfl⟩

/-- One gate either leaves the row with key `i` alone or applies its own
write to it; in both cases the row survives. -/
theorem runGate_find_mono {st : SweepState} {i : Nat} {o : Obligation}
    (env : Env) (pred : Obligation → Bool) (days : Nat)
    (u : Obligation → Obligation) (hu_id : ∀ o, (u o).id = o.id)
    (hu_idem : ∀ o, u (u o) = u o) (hfind : findById st.db i = some o) :
    ∃ o', findById ((runGate env pred days u st).db) i = some o' ∧
      (o' = o ∨ o' = u o) := by
  rw [runGate_find env pred days u hu_id hu_idem st i]
  by_cases h : (st.db.filter pred).any (fun ob => ob.id == i && !env.updateFails ob.id) = true
  · rw [if_pos h, hfind]
    exact ⟨u o, rfl, Or.inr rfl⟩
  · rw [if_neg h, hfind]
    exact ⟨o, rfl, Or.inl rfl⟩

/-- A notifier sweep can only raise the notification flags of a surviving
row, never clear them. -/
theorem sweep_find_mono {db : List Obligation} {i : Nat} {o : Obligation}
    (env : Env) (today : Int) (hfind : findById db i = some o) :
    ∃ o', findById ((checkAndSendNotifications env today db).db) i = some o' ∧
      flagsLe o o' := by
  simp only [checkAndSendNotifications]
  have h0 : findById (SweepState.mk db 0 0 []).db i = some o := hfind
  rcases runGate_find_mono env (gate30Pred today) 30 setNotified30
    setNotified30_id setNotified30_idem h0 with ⟨o1, h1, ho1⟩
  rcases runGate_find_mono env (gate7Pred today) 7 setNotified7
    setNotified7_id setNotified7_idem h1 with ⟨o2, h2, ho2⟩
  rcases runGate_find_mono env (gate1Pred today) 1 setNotified1
    setNotified1_id setNotified1_idem h2 with ⟨o3, h3, ho3⟩
  rcases runGate_find_mono env (expiredPred today) 0 setNotifiedExpired
    setNotifiedExpired_id setNotifiedExpired_idem h3 with ⟨o4, h4, ho4⟩
  refine ⟨o4, h4, ?_⟩
  have l1 : flagsLe o o1 := by
    rcases ho1 with h | h
    · rw [h]; exact flagsLe_refl o
    · rw [h]; exact flagsLe_setNotified30 o
  have l2 : flagsLe o1 o2 := by
    rcases ho2 with h | h
    · rw [h]; exact flagsLe_refl o1
    · rw [h]; exact flagsLe_setNotified7 o1
  have l3 : flagsLe o2 o3 := by
    rcases ho3 with h | h
    · rw [h]; exact flagsLe_refl o2
    · rw [h]; exact flagsLe_setNotified1 o2
  have l4 : flagsLe o3 o4 := by
    rcases ho4 with h | h
    · rw [h]; exact flagsLe_refl o3
    · rw [h]; exact flagsLe_setNotifiedExpired o3
  exact flagsLe_trans (flagsLe_trans (flagsLe_trans l1 l2) l3) l4

/-! ## Lemmas about the detector insert loop -/

theorem obligationExists_append {obs : List Obligation} {c : Nat} {t s : String}
    {r : Nat} (h : obligationExists obs c t s r = true) (l : List Obligation) :
    obligationExists (obs ++ l) c t s r = true := by
  unfold obligationExists at h ⊢
  rw [List.any_append, h]
  rfl

theorem insertLoop_extend (env : Env) (c : Nat) (a : Option Nat)
    (pending : List PendingInsert) (w : World) (created : List Obligation) :
    ∃ l, (insertLoop env c a pending w created).1.obligations = w.obligations ++ l := by
  induction pending generalizing w created with
  | nil => exact ⟨[], by simp [insertLoop]⟩
  | cons q rest ih =>
    by_cases hq : obligationExists w.obligations c q.tip q.sourceTable q.sourceRecordId
    · rw [insertLoop, if_pos hq]
      exact ih w created
    · by_cases hf : env.insertFails q.sourceTable q.sourceRecordId
      · rw [insertLoop, if_neg hq, if_pos hf]
        exact ⟨[], by simp⟩
      · rw [insertLoop, if_neg hq, if_neg hf]
        rcases ih ⟨w.obligations ++ [mkObligation c a q w.nextId], w.nextId + 1⟩
          (created ++ [mkObligation c a q w.nextId]) with ⟨l, hl⟩
        exact ⟨[mkObligation c a q w.nextId] ++ l, by rw [hl, List.append_assoc]⟩

theorem obligationExists_mkObligation (c : Nat) (a : Option Nat)
    (q : PendingInsert) (oid : Nat) (obs : List Obligation) :
    obligationExists (obs ++ [mkObligation c a q oid]) c q.tip q.sourceTable
      q.sourceRecordId = true := by
  unfold obligationExists
  rw [List.any_append]
  simp [mkObligation]

theorem insertLoop_establishes (env : Env) (c : Nat) (a : Option Nat)
    (hins : ∀ s r, env.insertFails s r = false)
    (pending : List PendingInsert) (w : World) (created : List Obligation) :
    ∀ q ∈ pending, obligationExists
      ((insertLoop env c a pending w created).1.obligations)
      c q.tip q.sourceTable q.sourceRecordId = true := by
  induction pending generalizing w created with
  | nil => intro q hq; cases hq
  | cons x rest ih =>
    intro q hq
    by_cases hx : obligationExists w.obligations c x.tip x.sourceTable x.sourceRecordId
    · rw [insertLoop, if_pos hx]
      rcases List.mem_cons.mp hq with hqx | hqr
      · subst hqx
        rcases insertLoop_extend env c a rest w created with ⟨l, hl⟩
        rw [hl]
        exact obligationExists_append hx l
      · exact ih w created q hqr
    · rw [insertLoop, if_neg hx, hins x.sourceTable x.sourceRecordId]
      simp only [Bool.false_eq_true, if_false]
      rcases List.mem_cons.mp hq with hqx | hqr
      · subst hqx
        rcases insertLoop_extend env c a rest
          ⟨w.obligations ++ [mkObligation c a q w.nextId], w.nextId + 1⟩
          (created ++ [mkObligation c a q w.nextId]) with ⟨l, hl⟩
        rw [hl]
        exact obligationExists_append (obligationExists_mkObligation c a q w.nextId
          w.obligations) l
      · exact ih _ _ q hqr

theorem insertLoop_skip_all (env : Env) (c : Nat) (a : Option Nat)
    (pending : List PendingInsert) (w : World) (created : List Obligation)
    (hall : ∀ q ∈ pending, obligationExists w.obligations c q.tip q.sourceTable
      q.sourceRecordId = true) :
    insertLoop env c a pending w created = (w, Except.ok created) := by
  induction pending with
  | nil => rfl
  | cons x rest ih =>
    rw [insertLoop, if_pos (hall x (List.mem_cons_self x rest))]
    exact ih (fun q hq => hall q (List.mem_cons_of_mem x hq))

/-- With a never-failing insert oracle the insert loop always returns a
created list, never an error. -/
theorem insertLoop_ok (env : Env) (c : Nat) (a : Option Nat)
    (hins : ∀ s r, env.insertFails s r = false) (pending : List PendingInsert)
    (w : World) (created : List Obligation) :
    ∃ cr, insertLoop env c a pending w created =
      ((insertLoop env c a pending w created).1, Except.ok cr) := by
  induction pending generalizing w created with
  | nil => exact ⟨created, rfl⟩
  | cons x rest ih =>
    by_cases hx : obligationExists w.obligations c x.tip x.sourceTable x.sourceRecordId
    · rw [insertLoop, if_pos hx]
      exact ih w created
    · rw [insertLoop, if_neg hx, hins x.sourceTable x.sourceRecordId]
      simp only [Bool.false_eq_true, if_false]
      exact ih _ _

/-! ## Lemmas about the bulk expiry update -/

theorem expireOne_id (today : Int) (c : Nat) (o : Obligation) :
    (expireOne today c o).id = o.id := by
  unfold expireOne
  split <;> rfl

theorem expireOne_idem (today : Int) (c : Nat) (o : Obligation) :
    expireOne today c (expireOne today c o) = expireOne today c o := by
  by_cases h : (o.companyId == c && o.status == "aktivan" && decide (o.rokDatum < today)) = true
  · have h1 : expireOne today c o = { o with status := "istekao" } := by
      unfold expireOne
      rw [if_pos h]
    rw [h1]
    unfold expireOne
    rw [if_neg]
    simp
  · have h1 : expireOne today c o = o := by
      unfold expireOne
      rw [if_neg h]
    rw [h1, h1]

theorem flagsLe_expireOne (today : Int) (c : Nat) (o : Obligation) :
    flagsLe o (expireOne today c o) := by
  unfold expireOne
  split
  · exact ⟨fun h => h, fun h => h, fun h => h, fun h => h⟩
  · exact flagsLe_refl o

theorem obligationExists_expire (today : Int) (c : Nat) (obs : List Obligation)
    (c' : Nat) (t s : String) (r : Nat) :
    obligationExists (expireCompanyObligations today c obs) c' t s r =
      obligationExists obs c' t s r := by
  unfold expireCompanyObligations obligationExists
  induction obs with
  | nil => rfl
  | cons o rest ih =>
    simp only [List.map_cons, List.any_cons, ih]
    congr 1
    unfold expireOne
    split <;> rfl

theorem expire_idem (today : Int) (c : Nat) (obs : List Obligation) :
    expireCompanyObligations today c (expireCompanyObligations today c obs) =
      expireCompanyObligations today c obs := by
  unfold expireCompanyObligations
  rw [List.map_map]
  apply List.map_congr_left
  intro o _
  show expireOne today c (expireOne today c o) = expireOne today c o
  exact expireOne_idem today c o

theorem findById_expire (today : Int) (c : Nat) (obs : List Obligation) (i : Nat) :
    findById (expireCompanyObligations today c obs) i =
      (findById obs i).map (expireOne today c) := by
  unfold expireCompanyObligations
  exact findById_map _ (expireOne_id today c) obs i

/-! ## Lemmas about the full detector sync -/

/-- A detector sync can only append rows and turn `aktivan` into `istekao`;
the notification flags of a surviving row never go down. -/
theorem sync_find_mono {w : World} {i : Nat} {o : Obligation}
    (src : SourceData) (env : Env) (today : Int) (cid : Nat) (aid : Option Nat)
    (hfind : findById w.obligations i = some o) :
    ∃ o', findById ((syncAllObligations src env today cid aid w).1.obligations) i =
      some o' ∧ flagsLe o o' := by
  unfold syncAllObligations detectMedicalExamDeadlines detectTrainingDeadlines
    detectEquipmentInspections
  split
  next w1 e hm =>
    have hf1 : findById w1.obligations i = some o := by
      rcases insertLoop_extend env cid aid (medicalPending src env today cid) w [] with ⟨l, hl⟩
      rw [hm] at hl
      rw [hl]
      exact findById_append_left hfind l
    exact ⟨o, hf1, flagsLe_refl o⟩
  next w1 med hm =>
    have hf1 : findById w1.obligations i = some o := by
      rcases insertLoop_extend env cid aid (medicalPending src env today cid) w [] with ⟨l, hl⟩
      rw [hm] at hl
      rw [hl]
      exact findById_append_left hfind l
    split
    next w2 e ht =>
      have hf2 : findById w2.obligations i = some o := by
        rcases insertLoop_extend env cid aid (trainingPending src env today cid) w1 [] with ⟨l, hl⟩
        rw [ht] at hl
        rw [hl]
        exact findById_append_left hf1 l
      exact ⟨o, hf2, flagsLe_refl o⟩
    next w2 tr ht =>
      have hf2 : findById w2.obligations i = some o := by
        rcases insertLoop_extend env cid aid (trainingPending src env today cid) w1 [] with ⟨l, hl⟩
        rw [ht] at hl
        rw [hl]
        exact findById_append_left hf1 l
      split
      next w3 e he =>
        have hf3 : findById w3.obligations i = some o := by
          rcases insertLoop_extend env cid aid (equipmentPending src cid ++
            electricalPending src cid ++ environmentPending src cid) w2 [] with ⟨l, hl⟩
          rw [he] at hl
          rw [hl]
          exact findById_append_left hf2 l
        exact ⟨o, hf3, flagsLe_refl o⟩
      next w3 eqp he =>
        have hf3 : findById w3.obligations i = some o := by
          rcases insertLoop_extend env cid aid (equipmentPending src cid ++
            electricalPending src cid ++ environmentPending src cid) w2 [] with ⟨l, hl⟩
          rw [he] at hl
          rw [hl]
          exact findById_append_left hf2 l
        refine ⟨expireOne today cid o, ?_, flagsLe_expireOne today cid o⟩
        show findById (expireCompanyObligations today cid w3.obligations) i = _
        rw [findById_expire, hf3]
        rfl

/-- Running the same insert loop again immediately after a fully successful
run skips every pending row. -/
theorem insertLoop_twice (env : Env) (c : Nat) (a : Option Nat)
    (hins : ∀ s r, env.insertFails s r = false) (pending : List PendingInsert)
    (w : World) :
    insertLoop env c a pending ((insertLoop env c a pending w []).1) [] =
      ((insertLoop env c a pending w []).1, Except.ok []) :=
  insertLoop_skip_all env c a pending _ []
    (insertLoop_establishes env c a hins pending w [])

/-- After a sync with a never-failing insert oracle, every pending source row
has a matching obligation, and the obligations table is a fixed point of the
bulk expiry update. -/
theorem sync_post (src : SourceData) (env : Env) (today : Int) (cid : Nat)
    (aid : Option Nat) (w : World) (hins : ∀ s r, env.insertFails s r = false) :
    (∀ q ∈ medicalPending src env today cid ++ trainingPending src env today cid ++
      (equipmentPending src cid ++ electricalPending src cid ++ environmentPending src cid),
      obligationExists ((syncAllObligations src env today cid aid w).1.obligations)
        cid q.tip q.sourceTable q.sourceRecordId = true) ∧
    expireCompanyObligations today cid
        ((syncAllObligations src env today cid aid w).1.obligations) =
      (syncAllObligations src env today cid aid w).1.obligations := by
  unfold syncAllObligations detectMedicalExamDeadlines detectTrainingDeadlines
    detectEquipmentInspections
  split
  next w1 e hm =>
    exfalso
    rcases insertLoop_ok env cid aid hins (medicalPending src env today cid) w [] with ⟨cr, hok⟩
    rw [hm] at hok
    exact Except.noConfusion (congrArg Prod.snd hok)
  next w1 med hm =>
    have est1 : ∀ q ∈ medicalPending src env today cid,
        obligationExists w1.obligations cid q.tip q.sourceTable q.sourceRecordId = true := by
      intro q hq
      have := insertLoop_establishes env cid aid hins (medicalPending src env today cid) w [] q hq
      rwa [hm] at this
    split
    next w2 e ht =>
      exfalso
      rcases insertLoop_ok env cid aid hins (trainingPending src env today cid) w1 [] with ⟨cr, hok⟩
      rw [ht] at hok
      exact Except.noConfusion (congrArg Prod.snd hok)
    next w2 tr ht =>
      have hext2 : ∃ l, w2.obligations = w1.obligations ++ l := by
        rcases insertLoop_extend env cid aid (trainingPending src env today cid) w1 [] with ⟨l, hl⟩
        rw [ht] at hl
        exact ⟨l, hl⟩
      have est2 : ∀ q ∈ trainingPending src env today cid,
          obligationExists w2.obligations cid q.tip q.sourceTable q.sourceRecordId = true := by
        intro q hq
        have := insertLoop_establishes env cid aid hins (trainingPending src env today cid) w1 [] q hq
        rwa [ht] at this
      have est1b : ∀ q ∈ medicalPending src env today cid,
          obligationExists w2.obligations cid q.tip q.sourceTable q.sourceRecordId = true := by
        intro q hq
        rcases hext2 with ⟨l, hl⟩
        rw [hl]
        exact obligationExists_append (est1 q hq) l
      split
      next w3 e he =>
        exfalso
        rcases insertLoop_ok env cid aid hins (equipmentPending src cid ++
          electricalPending src cid ++ environmentPending src cid) w2 [] with ⟨cr, hok⟩
        rw [he] at hok
        exact Except.noConfusion (congrArg Prod.snd hok)
      next w3 eqp he =>
        have hext3 : ∃ l, w3.obligations = w2.obligations ++ l := by
          rcases insertLoop_extend env cid aid (equipmentPending src cid ++
            electricalPending src cid ++ environmentPending src cid) w2 [] with ⟨l, hl⟩
          rw [he] at hl
          exact ⟨l, hl⟩
        have est3 : ∀ q ∈ equipmentPending src cid ++ electricalPending src cid ++
            environmentPending src cid,
            obligationExists w3.obligations cid q.tip q.sourceTable q.sourceRecordId = true := by
          intro q hq
          have := insertLoop_establishes env cid aid hins (equipmentPending src cid ++
            electricalPending src cid ++ environmentPending src cid) w2 [] q hq
          rwa [he] at this
        have est12 : ∀ q ∈ medicalPending src env today cid ++ trainingPending src env today cid,
            obligationExists w3.obligations cid q.tip q.sourceTable q.sourceRecordId = true := by
          intro q hq
          rcases hext3 with ⟨l, hl⟩
          rw [hl]
          rcases List.mem_append.mp hq with h | h
          · exact obligationExists_append (est1b q h) l
          · exact obligationExists_append (est2 q h) l
        constructor
        · intro q hq
          show obligationExists (expireCompanyObligations today cid w3.obligations)
            cid q.tip q.sourceTable q.sourceRecordId = true
          rw [obligationExists_expire]
          rcases List.mem_append.mp hq with h | h
          · exact est12 q h
          · exact est3 q h
        · show expireCompanyObligations today cid
              (expireCompanyObligations today cid w3.obligations) = _
          exact expire_idem today cid w3.obligations

/-- A sync in which every pending source row already has a matching
obligation and the table is already expiry-stable is a no-op returning a
created count of zero. -/
theorem sync_skip_run (src : SourceData) (env : Env) (today : Int) (cid : Nat)
    (aid : Option Nat) (w : World)
    (h1 : ∀ q ∈ medicalPending src env today cid,
      obligationExists w.obligations cid q.tip q.sourceTable q.sourceRecordId = true)
    (h2 : ∀ q ∈ trainingPending src env today cid,
      obligationExists w.obligations cid q.tip q.sourceTable q.sourceRecordId = true)
    (h3 : ∀ q ∈ equipmentPending src cid ++ electricalPending src cid ++
      environmentPending src cid,
      obligationExists w.obligations cid q.tip q.sourceTable q.sourceRecordId = true)
    (hexp : expireCompanyObligations today cid w.obligations = w.obligations) :
    syncAllObligations src env today cid aid w = (w, Except.ok 0) := by
  have e1 := insertLoop_skip_all env cid aid (medicalPending src env today cid) w [] h1
  have e2 := insertLoop_skip_all env cid aid (trainingPending src env today cid) w [] h2
  have e3 := insertLoop_skip_all env cid aid (equipmentPending src cid ++
    electricalPending src cid ++ environmentPending src cid) w [] h3
  unfold syncAllObligations detectMedicalExamDeadlines detectTrainingDeadlines
    detectEquipmentInspections
  split
  next w1 e hm =>
    rw [e1] at hm
    exact Except.noConfusion (congrArg Prod.snd hm)
  next w1 med hm =>
    rw [e1] at hm
    have hw1 : w = w1 := congrArg Prod.fst hm
    have hmed : ([] : List Obligation) = med := by
      have := congrArg Prod.snd hm
      exact Except.ok.inj this
    subst hw1
    subst hmed
    split
    next w2 e ht =>
      rw [e2] at ht
      exact Except.noConfusion (congrArg Prod.snd ht)
    next w2 tr ht =>
      rw [e2] at ht
      have hw2 : w = w2 := congrArg Prod.fst ht
      have htr : ([] : List Obligation) = tr := Except.ok.inj (congrArg Prod.snd ht)
      subst hw2
      subst htr
      split
      next w3 e he =>
        rw [e3] at he
        exact Except.noConfusion (congrArg Prod.snd he)
      next w3 eqp he =>
        rw [e3] at he
        have hw3 : w = w3 := congrArg Prod.fst he
        have heqp : ([] : List Obligation) = eqp := Except.ok.inj (congrArg Prod.snd he)
        subst hw3
        subst heqp
        rw [hexp]
        rfl

/-! ## Accounting and delivery-independence lemmas for the notifier -/

theorem countP_not_add_countP (l : List Obligation) (fail : Nat → Bool) :
    l.countP (fun ob => !fail ob.id) + l.countP (fun ob => fail ob.id) = l.length := by
  induction l with
  | nil => rfl
  | cons x rest ih =>
    rw [List.countP_cons, List.countP_cons]
    by_cases h : fail x.id <;> simp [h] <;> omega

/-- Each sweep state reached by a gate keeps one log entry per counted item:
the log length always equals `sent + errors`. -/
theorem runGate_acct (env : Env) (pred : Obligation → Bool) (days : Nat)
    (u : Obligation → Obligation) (st : SweepState)
    (h : st.log.length = st.sent + st.errors) :
    (runGate env pred days u st).log.length =
      (runGate env pred days u st).sent + (runGate env pred days u st).errors := by
  unfold runGate
  rw [foldl_processItem_log_length, foldl_processItem_sent, foldl_processItem_errors, h,
    ← countP_not_add_countP (st.db.filter pred) env.updateFails]
  omega

/-- The table, counters and selections of a sweep do not read the delivery
oracle: only the logged outcomes do.  Stated for two environments with the
same update oracle. -/
theorem foldl_processItem_env_invariant (env env' : Env)
    (hupd : env.updateFails = env'.updateFails) (days : Nat)
    (u : Obligation → Obligation) (items : List Obligation) (st st' : SweepState)
    (hdb : st.db = st'.db) (hsent : st.sent = st'.sent) (herr : st.errors = st'.errors) :
    (items.foldl (processItem env days u) st).db =
        (items.foldl (processItem env' days u) st').db ∧
      (items.foldl (processItem env days u) st).sent =
        (items.foldl (processItem env' days u) st').sent ∧
      (items.foldl (processItem env days u) st).errors =
        (items.foldl (processItem env' days u) st').errors := by
  induction items generalizing st st' with
  | nil => exact ⟨hdb, hsent, herr⟩
  | cons x rest ih =>
    rw [List.foldl_cons, List.foldl_cons]
    apply ih
    · rw [processItem_db, processItem_db, ← hupd, hdb]
    · rw [processItem_sent, processItem_sent, ← hupd, hsent]
    · rw [processItem_errors, processItem_errors, ← hupd, herr]

theorem runGate_env_invariant (env env' : Env)
    (hupd : env.updateFails = env'.updateFails) (pred : Obligation → Bool)
    (days : Nat) (u : Obligation → Obligation) (st st' : SweepState)
    (hdb : st.db = st'.db) (hsent : st.sent = st'.sent) (herr : st.errors = st'.errors) :
    (runGate env pred days u st).db = (runGate env' pred days u st').db ∧
      (runGate env pred days u st).sent = (runGate env' pred days u st').sent ∧
      (runGate env pred days u st).errors = (runGate env' pred days u st').errors := by
  unfold runGate
  rw [hdb]
  exact foldl_processItem_env_invariant env env' hupd days u _ st st' hdb hsent herr

theorem sweep_env_invariant (env env' : Env)
    (hupd : env.updateFails = env'.updateFails) (today : Int) (db : List Obligation) :
    (checkAndSendNotifications env today db).db =
        (checkAndSendNotifications env' today db).db ∧
      (checkAndSendNotifications env today db).sent =
        (checkAndSendNotifications env' today db).sent ∧
      (checkAndSendNotifications env today db).errors =
        (checkAndSendNotifications env' today db).errors := by
  simp only [checkAndSendNotifications]
  have i1 := runGate_env_invariant env env' hupd (gate30Pred today) 30 setNotified30
    ⟨db, 0, 0, []⟩ ⟨db, 0, 0, []⟩ rfl rfl rfl
  have i2 := runGate_env_invariant env env' hupd (gate7Pred today) 7 setNotified7
    _ _ i1.1 i1.2.1 i1.2.2
  have i3 := runGate_env_invariant env env' hupd (gate1Pred today) 1 setNotified1
    _ _ i2.1 i2.2.1 i2.2.2
  exact runGate_env_invariant env env' hupd (expiredPred today) 0 setNotifiedExpired
    _ _ i3.1 i3.2.1 i3.2.2

/-- The address attempted for a recipient is a function of the address
resolution alone: the delivery oracle only affects the recorded outcome bit. -/
theorem attempt_map_fst (ce : Option String) (df : String → Bool) :
    (if jsTruthy ce then ce.map (fun a => (a, !df a)) else none).map Prod.fst =
      (if jsTruthy ce then ce else none) := by
  cases ce with
  | none => rfl
  | some s =>
    by_cases h : jsTruthy (some s) <;> simp [h]

/-- When neither recipient address resolves, a fired gate dispatches nothing. -/
theorem sendDeadlineEmail_no_recipients (env : Env) (ob : Obligation) (d : Nat)
    (hc : resolveCompanyEmail env ob = none) (ha : resolveAgencyEmail env ob = none) :
    sendDeadlineEmail env ob d = { companyAttempt := none, agencyAttempt := none } := by
  simp only [sendDeadlineEmail]
  simp only [resolveCompanyEmail] at hc
  simp only [resolveAgencyEmail] at ha
  by_cases h1 : jsTruthy (jsOr ((env.companies.find? (fun c => c.id == ob.companyId)).bind
    Company.ownerEmail) ((env.companies.find? (fun c => c.id == ob.companyId)).bind Company.email))
  · rw [if_pos h1] at hc
    rw [hc] at h1
    simp [jsTruthy] at h1
  · rw [if_neg h1]
    by_cases h2 : jsTruthy (match ob.agencyId with
      | some aid => (env.agencies.find? (fun a => a.id == aid)).bind Agency.email
      | none => none)
    · rw [if_pos h2] at ha
      rw [ha] at h2
      simp [jsTruthy] at h2
    · rw [if_neg h2]

/-! ## Band helpers for the risk scorer -/

theorem getRiskLevel_low {r : Int} (h : r ≤ 36) :
    getRiskLevel r = "Низак ризик (прихватљив)" := by
  unfold getRiskLevel
  rw [if_pos h]

theorem getRiskLevel_mid {r : Int} (h1 : 36 < r) (h2 : r ≤ 70) :
    getRiskLevel r = "Средњи ризик (потребно праћење)" := by
  unfold getRiskLevel
  rw [if_neg (by omega), if_pos h2]

theorem getRiskLevel_high {r : Int} (h : 70 < r) :
    getRiskLevel r = "Висок ризик (неприхватљив)" := by
  unfold getRiskLevel
  rw [if_neg (by omega), if_neg (by omega)]

/-! ## Claims -/

/-- C2: for every integer triple (e, p, f) with each component in [1, 6], the
risk scorer computes `risk = e * p * f`, an integer in 1..216, and the band is
the deterministic function of the product alone with inclusive thresholds:
`risk ≤ 36` acceptable, `36 < risk ≤ 70` monitor, `risk > 70` unacceptable.
`calculateRisk` and `getRiskLevel` are pure functions, so repeated calls on
the same input trivially give the same (value, band) pair, and `getRiskLevel`
takes only the product, so the band depends on the product alone. -/
theorem claim2_risk_scoring_bands (e p f : Int)
    (he1 : 1 ≤ e) (he6 : e ≤ 6) (hp1 : 1 ≤ p) (hp6 : p ≤ 6)
    (hf1 : 1 ≤ f) (hf6 : f ≤ 6) :
    calculateRisk e p f = e * p * f ∧
    (1 ≤ calculateRisk e p f ∧ calculateRisk e p f ≤ 216) ∧
    (calculateRisk e p f ≤ 36 →
      getRiskLevel (calculateRisk e p f) = "Низак ризик (прихватљив)") ∧
    (36 < calculateRisk e p f → calculateRisk e p f ≤ 70 →
      getRiskLevel (calculateRisk e p f) = "Средњи ризик (потребно праћење)") ∧
    (70 < calculateRisk e p f →
      getRiskLevel (calculateRisk e p f) = "Висок ризик (неприхватљив)") := by
  have hep1 : (1 : Int) ≤ e * p := by nlinarith
  have hep36 : e * p ≤ 36 := by nlinarith
  refine ⟨rfl, ⟨?_, ?_⟩, ?_, ?_, ?_⟩
  · show (1 : Int) ≤ e * p * f
    nlinarith
  · show e * p * f ≤ 216
    nlinarith
  · intro h
    exact getRiskLevel_low h
  · intro h1 h2
    exact getRiskLevel_mid h1 h2
  · intro h
    exact getRiskLevel_high h

/-- Witness for C2 at the boundary triple (2, 3, 6) with product 36. -/
theorem claim2_witness :
    calculateRisk 2 3 6 = 2 * 3 * 6 ∧
    (1 ≤ calculateRisk 2 3 6 ∧ calculateRisk 2 3 6 ≤ 216) ∧
    (calculateRisk 2 3 6 ≤ 36 →
      getRiskLevel (calculateRisk 2 3 6) = "Низак ризик (прихватљив)") ∧
    (36 < calculateRisk 2 3 6 → calculateRisk 2 3 6 ≤ 70 →
      getRiskLevel (calculateRisk 2 3 6) = "Средњи ризик (потребно праћење)") ∧
    (70 < calculateRisk 2 3 6 →
      getRiskLevel (calculateRisk 2 3 6) = "Висок ризик (неприхватљив)") :=
  claim2_risk_scoring_bands 2 3 6 (by decide) (by decide) (by decide) (by decide)
    (by decide) (by decide)

/-- C9 counterexample: the component 7 is outside [1, 6], yet the risk
scorer computes 7 * 1 * 1 = 7 and returns the acceptable band instead of
rejecting — `calculateRisk` has no validation code at all. -/
theorem claim9_counterexample :
    calculateRisk 7 1 1 = 7 ∧
      getRiskLevel (calculateRisk 7 1 1) = "Низак ризик (прихватљив)" := by
  constructor
  · decide
  · decide

/-- C9 as the code has it: the risk scorer performs no input validation;
for every integer triple, in range or not, it computes the product and
returns one of the three bands, with no failure path. -/
theorem claim9_no_input_validation (e p f : Int) :
    calculateRisk e p f = e * p * f ∧
      (getRiskLevel (calculateRisk e p f) = "Низак ризик (прихватљив)" ∨
        getRiskLevel (calculateRisk e p f) = "Средњи ризик (потребно праћење)" ∨
        getRiskLevel (calculateRisk e p f) = "Висок ризик (неприхватљив)") := by
  refine ⟨rfl, ?_⟩
  by_cases h1 : calculateRisk e p f ≤ 36
  · exact Or.inl (getRiskLevel_low h1)
  · by_cases h2 : calculateRisk e p f ≤ 70
    · exact Or.inr (Or.inl (getRiskLevel_mid (by omega) h2))
    · exact Or.inr (Or.inr (getRiskLevel_high (by omega)))

/-- C3: the claim says "polugodisnje" parses to 6 months, and the source has
an explicit `polugodisnje` branch returning 6 — but that branch is dead: the
annual check `includes('godisnj')` runs first and "polugodisnje" contains
"godisnj", so the code returns 12.  The other semiannual form "na 6 meseci"
does reach the 6-month branch. -/
theorem claim3_parseFrequency_polugodisnje_bug :
    parseFrequencyToMonths "polugodisnje" = 12 ∧
      parseFrequencyToMonths "na 6 meseci" = 6 := by
  constructor
  · decide
  · decide

/-- C4 counterexample: an obligation with due date (day 5) strictly before
today (day 10) and `notifiedExpired = false`, but status `zavrsen`: the sweep
fires nothing — no notification is sent, the flag stays false and the status
stays `zavrsen`, because every gate of `checkAndSendNotifications`, the
expired gate included, also filters on status `aktivan`, which the claim
omits. -/
theorem claim4_counterexample :
    checkAndSendNotifications fixEnv 10 [fixObZavrsen] =
      { db := [fixObZavrsen], sent := 0, errors := 0, log := [] } := by
  decide

/-- C4 amended: for every obligation with status `aktivan` whose due date is
strictly before today and whose `notifiedExpired` flag is false, a notifier
sweep (with the flag write not failing and unique primary keys) fires the
expired gate: it attempts the notification send and the row ends with
`notifiedExpired = true` and status `istekao`, all other fields unchanged. -/
theorem claim4_expired_gate_fires_on_active {db : List Obligation} {today : Int}
    {ob : Obligation} (env : Env) (hnd : (db.map Obligation.id).Nodup)
    (hfind : findById db ob.id = some ob) (hstatus : ob.status = "aktivan")
    (hrok : ob.rokDatum < today) (hflag : ob.notifikovanoIsteklo = false)
    (hfl : env.updateFails ob.id = false) :
    findById ((checkAndSendNotifications env today db).db) ob.id =
      some (setNotifiedExpired ob) ∧
    (ob.id, 0, sendDeadlineEmail env ob 0) ∈ (checkAndSendNotifications env today db).log := by
  have p30 : gate30Pred today ob = false := by
    unfold gate30Pred
    rw [decide_eq_false (by omega : ¬ ob.rokDatum > today)]
    simp
  have p7 : gate7Pred today ob = false := by
    unfold gate7Pred
    rw [decide_eq_false (by omega : ¬ ob.rokDatum > today)]
    simp
  have p1 : gate1Pred today ob = false := by
    unfold gate1Pred
    rw [decide_eq_false (by omega : ¬ ob.rokDatum > today)]
    simp
  have pexp : expiredPred today ob = true := by
    unfold expiredPred
    rw [hstatus, hflag, decide_eq_true (show ob.rokDatum < today by omega)]
    rfl
  simp only [checkAndSendNotifications]
  have h1 := runGate_skip env (gate30Pred today) 30 setNotified30 setNotified30_id
    setNotified30_idem ⟨db, 0, 0, []⟩ rfl hnd hfind p30
  have n1 : (((runGate env (gate30Pred today) 30 setNotified30
      ⟨db, 0, 0, []⟩).db).map Obligation.id).Nodup := by
    rw [runGate_map_id env _ 30 setNotified30 setNotified30_id]
    exact hnd
  have h2 := runGate_skip env (gate7Pred today) 7 setNotified7 setNotified7_id
    setNotified7_idem _ rfl n1 h1 p7
  have n2 : (((runGate env (gate7Pred today) 7 setNotified7
      (runGate env (gate30Pred today) 30 setNotified30
        ⟨db, 0, 0, []⟩)).db).map Obligation.id).Nodup := by
    rw [runGate_map_id env _ 7 setNotified7 setNotified7_id]
    exact n1
  have h3 := runGate_skip env (gate1Pred today) 1 setNotified1 setNotified1_id
    setNotified1_idem _ rfl n2 h2 p1
  have n3 : (((runGate env (gate1Pred today) 1 setNotified1
      (runGate env (gate7Pred today) 7 setNotified7
        (runGate env (gate30Pred today) 30 setNotified30
          ⟨db, 0, 0, []⟩))).db).map Obligation.id).Nodup := by
    rw [runGate_map_id env _ 1 setNotified1 setNotified1_id]
    exact n2
  refine ⟨?_, ?_⟩
  · exact runGate_fire env (expiredPred today) 0 setNotifiedExpired setNotifiedExpired_id
      setNotifiedExpired_idem _ rfl n3 h3 pexp hfl
  · exact foldl_processItem_log_mem env 0 setNotifiedExpired _ _
      (List.mem_filter.mpr ⟨findById_mem h3, pexp⟩)

/-- Witness for C4 at a concrete overdue active obligation. -/
theorem claim4_witness :
    findById ((checkAndSendNotifications fixEnv 10 [fixObExpired]).db) fixObExpired.id =
      some (setNotifiedExpired fixObExpired) ∧
    (fixObExpired.id, 0, sendDeadlineEmail fixEnv fixObExpired 0) ∈
      (checkAndSendNotifications fixEnv 10 [fixObExpired]).log :=
  claim4_expired_gate_fires_on_active fixEnv (by decide) (by decide) (by decide)
    (by decide) (by decide) (by decide)

/-- C6: an `aktivan` obligation due strictly more than 1 and at most 7 days
after today, with `notified30` already set and `notified7` clear, has exactly
the 7-day gate fire in one sweep: `notified7` becomes true while `notified30`,
`notified1`, `notifiedExpired` and the status are untouched (the conclusion
pins the whole row to `setNotified7 ob`, which changes only that one field). -/
theorem claim6_gate_window_frame {db : List Obligation} {today : Int}
    {ob : Obligation} (env : Env) (hnd : (db.map Obligation.id).Nodup)
    (hfind : findById db ob.id = some ob) (hstatus : ob.status = "aktivan")
    (h30 : ob.notifikovanoDana30 = true) (h7 : ob.notifikovanoDana7 = false)
    (hlow : today + 1 < ob.rokDatum) (hhigh : ob.rokDatum ≤ today + 7)
    (hfl : env.updateFails ob.id = false) :
    findById ((checkAndSendNotifications env today db).db) ob.id =
      some (setNotified7 ob) := by
  have p30 : gate30Pred today ob = false := by
    unfold gate30Pred
    rw [h30]
    simp
  have p7 : gate7Pred today ob = true := by
    unfold gate7Pred
    rw [hstatus, h7, decide_eq_true (show ob.rokDatum ≤ today + 7 by omega),
      decide_eq_true (show ob.rokDatum > today by omega)]
    rfl
  have p1 : gate1Pred today (setNotified7 ob) = false := by
    unfold gate1Pred
    rw [show (setNotified7 ob).rokDatum = ob.rokDatum from rfl,
      decide_eq_false (by omega : ¬ ob.rokDatum ≤ today + 1)]
    simp
  have pexp : expiredPred today (setNotified7 ob) = false := by
    unfold expiredPred
    rw [show (setNotified7 ob).rokDatum = ob.rokDatum from rfl,
      decide_eq_false (by omega : ¬ ob.rokDatum < today)]
    simp
  simp only [checkAndSendNotifications]
  have h1 := runGate_skip env (gate30Pred today) 30 setNotified30 setNotified30_id
    setNotified30_idem ⟨db, 0, 0, []⟩ rfl hnd hfind p30
  have n1 : (((runGate env (gate30Pred today) 30 setNotified30
      ⟨db, 0, 0, []⟩).db).map Obligation.id).Nodup := by
    rw [runGate_map_id env _ 30 setNotified30 setNotified30_id]
    exact hnd
  have h2 : findById ((runGate env (gate7Pred today) 7 setNotified7
      (runGate env (gate30Pred today) 30 setNotified30 ⟨db, 0, 0, []⟩)).db) ob.id =
      some (setNotified7 ob) :=
    runGate_fire env (gate7Pred today) 7 setNotified7 setNotified7_id
      setNotified7_idem _ rfl n1 h1 p7 hfl
  have n2 : (((runGate env (gate7Pred today) 7 setNotified7
      (runGate env (gate30Pred today) 30 setNotified30
        ⟨db, 0, 0, []⟩)).db).map Obligation.id).Nodup := by
    rw [runGate_map_id env _ 7 setNotified7 setNotified7_id]
    exact n1
  have hid7 : (setNotified7 ob).id = ob.id := rfl
  have h2b : findById ((runGate env (gate7Pred today) 7 setNotified7
      (runGate env (gate30Pred today) 30 setNotified30 ⟨db, 0, 0, []⟩)).db)
      (setNotified7 ob).id = some (setNotified7 ob) := by
    rw [hid7]
    exact h2
  have h3 := runGate_skip env (gate1Pred today) 1 setNotified1 setNotified1_id
    setNotified1_idem _ rfl n2 h2b p1
  have n3 : (((runGate env (gate1Pred today) 1 setNotified1
      (runGate env (gate7Pred today) 7 setNotified7
        (runGate env (gate30Pred today) 30 setNotified30
          ⟨db, 0, 0, []⟩))).db).map Obligation.id).Nodup := by
    rw [runGate_map_id env _ 1 setNotified1 setNotified1_id]
    exact n2
  have h4 := runGate_skip env (expiredPred today) 0 setNotifiedExpired
    setNotifiedExpired_id setNotifiedExpired_idem _ rfl n3 h3 pexp
  rw [hid7] at h4
  exact h4

/-- Witness for C6 at a concrete obligation due in 5 days with the 30-day
reminder already sent. -/
theorem claim6_witness :
    findById ((checkAndSendNotifications fixEnv 0 [fixObGate7]).db) fixObGate7.id =
      some (setNotified7 fixObGate7) :=
  claim6_gate_window_frame fixEnv (by decide) (by decide) (by decide) (by decide)
    (by decide) (by decide) (by decide) (by decide)

/-- C1: with inserts not failing, running the detector a second time against
unchanged source data is a no-op: `syncAllObligations` returns a created
count of 0 and leaves the world (rows, flags and all) exactly as the first
run left it, and each per-source detect function likewise returns an empty
created list the second time.  The dedupe query on
(company, tip, sourceTable, sourceRecordId) is what makes the second run
skip every row. -/
theorem claim1_detector_dedupe_idempotent (src : SourceData) (env : Env)
    (today : Int) (cid : Nat) (aid : Option Nat) (w : World)
    (hins : ∀ s r, env.insertFails s r = false) :
    syncAllObligations src env today cid aid
        (syncAllObligations src env today cid aid w).1 =
      ((syncAllObligations src env today cid aid w).1, Except.ok 0) ∧
    detectMedicalExamDeadlines src env today cid aid
        (detectMedicalExamDeadlines src env today cid aid w).1 =
      ((detectMedicalExamDeadlines src env today cid aid w).1, Except.ok []) ∧
    detectTrainingDeadlines src env today cid aid
        (detectTrainingDeadlines src env today cid aid w).1 =
      ((detectTrainingDeadlines src env today cid aid w).1, Except.ok []) ∧
    detectEquipmentInspections src env today cid aid
        (detectEquipmentInspections src env today cid aid w).1 =
      ((detectEquipmentInspections src env today cid aid w).1, Except.ok []) := by
  rcases sync_post src env today cid aid w hins with ⟨hall, hexp⟩
  refine ⟨?_, ?_, ?_, ?_⟩
  · apply sync_skip_run
    · intro q hq
      exact hall q (List.mem_append.mpr (Or.inl (List.mem_append.mpr (Or.inl hq))))
    · intro q hq
      exact hall q (List.mem_append.mpr (Or.inl (List.mem_append.mpr (Or.inr hq))))
    · intro q hq
      exact hall q (List.mem_append.mpr (Or.inr hq))
    · exact hexp
  · exact insertLoop_twice env cid aid hins (medicalPending src env today cid) w
  · exact insertLoop_twice env cid aid hins (trainingPending src env today cid) w
  · exact insertLoop_twice env cid aid hins (equipmentPending src cid ++
      electricalPending src cid ++ environmentPending src cid) w

/-- Witness for C1: a double sync over a one-exam source starting from the
empty world. -/
theorem claim1_witness :
    syncAllObligations fixSrcOne fixEnv 0 1 none
        (syncAllObligations fixSrcOne fixEnv 0 1 none fixWorldEmpty).1 =
      ((syncAllObligations fixSrcOne fixEnv 0 1 none fixWorldEmpty).1, Except.ok 0) ∧
    detectMedicalExamDeadlines fixSrcOne fixEnv 0 1 none
        (detectMedicalExamDeadlines fixSrcOne fixEnv 0 1 none fixWorldEmpty).1 =
      ((detectMedicalExamDeadlines fixSrcOne fixEnv 0 1 none fixWorldEmpty).1,
        Except.ok []) ∧
    detectTrainingDeadlines fixSrcOne fixEnv 0 1 none
        (detectTrainingDeadlines fixSrcOne fixEnv 0 1 none fixWorldEmpty).1 =
      ((detectTrainingDeadlines fixSrcOne fixEnv 0 1 none fixWorldEmpty).1,
        Except.ok []) ∧
    detectEquipmentInspections fixSrcOne fixEnv 0 1 none
        (detectEquipmentInspections fixSrcOne fixEnv 0 1 none fixWorldEmpty).1 =
      ((detectEquipmentInspections fixSrcOne fixEnv 0 1 none fixWorldEmpty).1,
        Except.ok []) :=
  claim1_detector_dedupe_idempotent fixSrcOne fixEnv 0 1 none fixWorldEmpty
    (fun _ _ => rfl)

/-- C5: over any sequence of notifier sweeps and detector syncs, a surviving
obligation row's four one-shot flags only ever go up, never from true back to
false.  Because the statement quantifies over every starting world and every
suffix of steps, it applies between any two points of a run, so each flag's
trace is monotone and flips false to true at most once. -/
theorem claim5_notification_flag_monotonicity (steps : List Step) (w : World)
    (i : Nat) (o : Obligation) (hfind : findById w.obligations i = some o) :
    ∃ o', findById ((runSteps w steps).obligations) i = some o' ∧ flagsLe o o' := by
  induction steps generalizing w o with
  | nil => exact ⟨o, hfind, flagsLe_refl o⟩
  | cons s rest ih =>
    have hstep : ∃ o1, findById ((applyStep w s).obligations) i = some o1 ∧
        flagsLe o o1 := by
      cases s with
      | sweep env today => exact sweep_find_mono env today hfind
      | sync src env today cid aid => exact sync_find_mono src env today cid aid hfind
    rcases hstep with ⟨o1, h1, hle1⟩
    rcases ih (applyStep w s) o1 h1 with ⟨o', h', hle'⟩
    exact ⟨o', h', flagsLe_trans hle1 hle'⟩

/-- Witness for C5: one sweep (which fires the expired gate) followed by one
sync over the one-exam source. -/
theorem claim5_witness :
    ∃ o', findById ((runSteps ⟨[fixObExpired], 2⟩
        [Step.sweep fixEnv 10, Step.sync fixSrcOne fixEnv 10 1 none]).obligations) 1 =
      some o' ∧ flagsLe fixObExpired o' :=
  claim5_notification_flag_monotonicity
    [Step.sweep fixEnv 10, Step.sync fixSrcOne fixEnv 10 1 none]
    ⟨[fixObExpired], 2⟩ 1 fixObExpired (by decide)

/-- C7 counterexample: a detector sync over two medical-exam source records
in which inserting the first record's obligation throws.  The sync returns an
error — not a summary of success and error counts — and the second, healthy
record is never processed: the world still holds no obligation at all. -/
theorem claim7_counterexample :
    syncAllObligations fixSrcTwo fixEnvInsertFail 0 1 none fixWorldEmpty =
      (fixWorldEmpty, Except.error "insert failed") := by
  rfl

/-- C7 amended: the notifier sweep returns a sent/errors summary and never
aborts early — every counted item leaves one log entry (so the summary
accounts for the whole batch), and every row a gate selects is processed and
its send attempted no matter which rows fail.  The detector sync, however,
returns only a created count with no error summary, and a single failing
insert aborts it: on the two-record source, the first record's failure ends
the run with an error and the second record is never inserted. -/
theorem claim7_batch_summary_no_early_abort :
    (∀ (env : Env) (today : Int) (db : List Obligation),
      (checkAndSendNotifications env today db).log.length =
        (checkAndSendNotifications env today db).sent +
          (checkAndSendNotifications env today db).errors) ∧
    (∀ (env : Env) (pred : Obligation → Bool) (days : Nat)
      (u : Obligation → Obligation) (st : SweepState) (o : Obligation),
      o ∈ st.db.filter pred →
      (o.id, days, sendDeadlineEmail env o days) ∈ (runGate env pred days u st).log) ∧
    syncAllObligations fixSrcTwo fixEnvInsertFail 0 1 none fixWorldEmpty =
      (fixWorldEmpty, Except.error "insert failed") := by
  refine ⟨?_, ?_, ?_⟩
  · intro env today db
    simp only [checkAndSendNotifications]
    apply runGate_acct
    apply runGate_acct
    apply runGate_acct
    apply runGate_acct
    rfl
  · intro env pred days u st o hmem
    exact foldl_processItem_log_mem env days u _ st hmem
  · rfl

/-- Witness for C7: the 30-day gate of a concrete sweep logs a send attempt
for the selected obligation. -/
theorem claim7_witness :
    (fixObGate30.id, 30, sendDeadlineEmail fixEnv fixObGate30 30) ∈
      (runGate fixEnv (gate30Pred 0) 30 setNotified30
        ⟨[fixObGate30], 0, 0, []⟩).log :=
  claim7_batch_summary_no_early_abort.2.1 fixEnv (gate30Pred 0) 30 setNotified30
    ⟨[fixObGate30], 0, 0, []⟩ fixObGate30 (by decide)

/-- C8: the two recipients of a fired gate are resolved and attempted
independently: the address attempted for each recipient is exactly its own
resolution, unaffected by the delivery oracle (so a delivery failure for one
recipient cannot suppress the attempt for the other — each per-recipient
rejection is swallowed by its own catch); and changing the delivery oracle
arbitrarily changes neither the resulting table (the one-shot flags are
written after the attempted send regardless of delivery success) nor the
sent/errors summary returned to the sweep's caller. -/
theorem claim8_two_recipient_delivery_independence :
    (∀ (env : Env) (ob : Obligation) (d : Nat),
      (sendDeadlineEmail env ob d).companyAttempt.map Prod.fst =
          resolveCompanyEmail env ob ∧
        (sendDeadlineEmail env ob d).agencyAttempt.map Prod.fst =
          resolveAgencyEmail env ob) ∧
    (∀ (env : Env) (g : String → Bool) (today : Int) (db : List Obligation),
      (checkAndSendNotifications { env with deliveryFails := g } today db).db =
          (checkAndSendNotifications env today db).db ∧
        (checkAndSendNotifications { env with deliveryFails := g } today db).sent =
          (checkAndSendNotifications env today db).sent ∧
        (checkAndSendNotifications { env with deliveryFails := g } today db).errors =
          (checkAndSendNotifications env today db).errors) := by
  constructor
  · intro env ob d
    constructor
    · simp only [sendDeadlineEmail, resolveCompanyEmail]
      exact attempt_map_fst _ env.deliveryFails
    · simp only [sendDeadlineEmail, resolveAgencyEmail]
      exact attempt_map_fst _ env.deliveryFails
  · intro env g today db
    exact sweep_env_invariant { env with deliveryFails := g } env rfl today db

/-- C10: the errors counter of a gate counts exactly the obligations whose
flag write throws, and the sent counter everything else — delivery outcomes
and recipient resolution never reach either counter; and an obligation whose
expired gate fires while no recipient address resolves still has its flag
set, still counts in `sent`, and the logged outcome records that no email
was dispatched to anyone. -/
theorem claim10_silent_success_accounting :
    (∀ (env : Env) (pred : Obligation → Bool) (days : Nat)
      (u : Obligation → Obligation) (st : SweepState),
      (runGate env pred days u st).sent =
          st.sent + (st.db.filter pred).countP (fun ob => !env.updateFails ob.id) ∧
        (runGate env pred days u st).errors =
          st.errors + (st.db.filter pred).countP (fun ob => env.updateFails ob.id)) ∧
    (∀ (env : Env) (today : Int) (ob : Obligation),
      ob.status = "aktivan" → ob.rokDatum < today → ob.notifikovanoIsteklo = false →
      env.updateFails ob.id = false → resolveCompanyEmail env ob = none →
      resolveAgencyEmail env ob = none →
      checkAndSendNotifications env today [ob] =
        { db := [setNotifiedExpired ob], sent := 1, errors := 0,
          log := [(ob.id, 0, { companyAttempt := none, agencyAttempt := none })] }) := by
  constructor
  · intro env pred days u st
    constructor
    · exact foldl_processItem_sent env days u _ st
    · exact foldl_processItem_errors env days u _ st
  · intro env today ob hstatus hrok hflag hfl hc ha
    have p30 : gate30Pred today ob = false := by
      unfold gate30Pred
      rw [decide_eq_false (by omega : ¬ ob.rokDatum > today)]
      simp
    have p7 : gate7Pred today ob = false := by
      unfold gate7Pred
      rw [decide_eq_false (by omega : ¬ ob.rokDatum > today)]
      simp
    have p1 : gate1Pred today ob = false := by
      unfold gate1Pred
      rw [decide_eq_false (by omega : ¬ ob.rokDatum > today)]
      simp
    have pexp : expiredPred today ob = true := by
      unfold expiredPred
      rw [hstatus, hflag, decide_eq_true (show ob.rokDatum < today by omega)]
      rfl
    have hmail := sendDeadlineEmail_no_recipients env ob 0 hc ha
    simp only [checkAndSendNotifications, runGate, List.filter_cons, List.filter_nil,
      p30, p7, p1, pexp, Bool.false_eq_true, if_false, if_true, List.foldl_nil,
      List.foldl_cons, processItem, hmail, hfl, updateById, List.map_cons,
      List.map_nil, beq_self_eq_true]
    rfl

/-- Witness for C10: a concrete overdue obligation swept in an environment
with no company or agency rows. -/
theorem claim10_witness :
    checkAndSendNotifications fixEnvNoRecipients 10 [fixObExpired] =
      { db := [setNotifiedExpired fixObExpired], sent := 1, errors := 0,
        log := [(fixObExpired.id, 0,
          { companyAttempt := none, agencyAttempt := none })] } :=
  claim10_silent_success_accounting.2 fixEnvNoRecipients 10 fixObExpired
    (by decide) (by decide) (by decide) (by decide) (by decide) (by decide)

end BzrPortal
